import Mathlib

/-!
Verification of the encrypted key-pair lifecycle implemented in
`pkg/cosign/keys.go` (package `cosign`): key generation, import of plain
RSA/EC PEM keys, passphrase-based encryption of the private key, and the
three loader entry points (`LoadPrivateKey`, `LoadECDSAPrivateKey`,
`LoadRSAPrivateKey`).

The Go code is embedded shallowly:

* Byte strings whose structure matters (PEM files, DER payloads,
  ciphertexts) are represented symbolically: `PemData` is a byte string as
  seen by `pem.Decode` (either no decodable block, or a first block plus
  the remaining bytes), and `Payload` is the symbolic content of a block
  body (a PKCS#8/PKCS#1/SEC1 encoding of a key, an SPKI public-key
  encoding, a go-tuf ciphertext, or opaque raw bytes).
* The external libraries (`encoding/pem`, `crypto/x509`,
  `go-tuf/encrypted`, sigstore `cryptoutils`/`signature`,
  `github.com/pkg/errors`) are modelled by ideal executable functions on
  these symbolic values, following their documented behaviour: PKCS#8 is
  self-describing, go-tuf `encrypted` is authenticated password-based
  encryption (decryption succeeds exactly under the encryption
  passphrase), and `errors.Wrap` returns nil on a nil error.
* A Go `(value, error)` return pair becomes `GoResult.ret`, keeping both
  components (each may independently be nil); a runtime panic (a failed
  unchecked type assertion) becomes `GoResult.panicked`.
* Randomness in key generation is abstracted as a `seed` parameter; the
  passphrase callback is a pure function, and the encoder functions
  additionally return the list of boolean arguments with which they
  invoked the callback, so that call-count properties are statable.
* `os.ReadFile` in `ImportKeyPair` belongs to the excluded I/O layer; the
  embedded `ImportKeyPair` receives the file contents directly.
-/

namespace Cosign

/-- Go `error` values produced in keys.go: `errors.New`, `fmt.Errorf`
(with the formatted message already substituted), and a non-nil
`errors.Wrap` annotation around a cause. -/
inductive GoError : Type where
  | new : String → GoError
  | errorf : String → GoError
  | wrap : String → GoError → GoError
deriving DecidableEq

/-- `errors.Wrap` from github.com/pkg/errors: if the wrapped error is nil
the result is nil, otherwise the error is annotated with the message. -/
def errorsWrap (err : Option GoError) (msg : String) : Option GoError :=
  match err with
  | none => none
  | some e => some (.wrap msg e)

/-- Concrete private-key types that can come out of
`x509.ParsePKCS8PrivateKey`: `rsa` stands for `*rsa.PrivateKey`, `ec` for
`*ecdsa.PrivateKey`, and `other` for any further concrete type
(e.g. `ed25519.PrivateKey`). The actual key material is abstracted to a
`Nat` identifier. -/
inductive PrivKey : Type where
  | rsa : Nat → PrivKey
  | ec : Nat → PrivKey
  | other : Nat → PrivKey
deriving DecidableEq

/-- Public keys, mirroring `PrivKey`. -/
inductive PubKey : Type where
  | rsa : Nat → PubKey
  | ec : Nat → PubKey
  | other : Nat → PubKey
deriving DecidableEq

/-- The public key paired with a private key (`pk.Public()` /
`&priv.PublicKey` in Go). -/
def derivePub : PrivKey → PubKey
  | .rsa k => .rsa k
  | .ec k => .ec k
  | .other k => .other k

/-- Symbolic content of a byte string used as a PEM block body or as an
intermediate buffer: opaque bytes, a PKCS#8 private-key encoding, a
PKCS#1 (RSA traditional) encoding, a SEC1 (EC traditional) encoding, an
SPKI public-key encoding, or a go-tuf `encrypted` ciphertext carrying its
plaintext and encryption passphrase symbolically. -/
inductive Payload : Type where
  | raw : List Nat → Payload
  | pkcs8 : PrivKey → Payload
  | pkcs1 : Nat → Payload
  | sec1 : Nat → Payload
  | spki : PubKey → Payload
  | encrypted : Payload → List Nat → Payload
deriving DecidableEq

/-- A decoded PEM block: type tag and body. -/
structure PemBlock : Type where
  ty : String
  bytes : Payload
deriving DecidableEq

/-- A byte string as seen by `pem.Decode`: either no PEM block can be
decoded from it (`noBlock`, carrying the opaque bytes), or it starts with
a first decodable block followed by the remaining bytes. -/
inductive PemData : Type where
  | noBlock : List Nat → PemData
  | firstBlock : PemBlock → PemData → PemData
deriving DecidableEq

/-- `pem.Decode`: returns the first PEM block and the remainder of the
input, or nothing when no block is found. -/
def pemDecode : PemData → Option (PemBlock × PemData)
  | .noBlock _ => none
  | .firstBlock b rest => some (b, rest)

/-- `pem.EncodeToMemory` of a single block. -/
def pemEncodeToMemory (b : PemBlock) : PemData :=
  .firstBlock b (.noBlock [])

/-- `x509.MarshalPKCS8PrivateKey`: all key types appearing here (RSA, EC,
Ed25519-like) have a PKCS#8 encoding, so the model always succeeds. -/
def x509MarshalPKCS8PrivateKey (k : PrivKey) : Except GoError Payload :=
  .ok (.pkcs8 k)

/-- `x509.ParsePKCS8PrivateKey`: succeeds exactly on PKCS#8 payloads
(the encoding is self-describing). -/
def x509ParsePKCS8PrivateKey : Payload → Except GoError PrivKey
  | .pkcs8 k => .ok k
  | _ => .error (.new "asn1 parse error")

/-- `x509.ParsePKCS1PrivateKey`: succeeds exactly on PKCS#1 payloads,
yielding an RSA key. -/
def x509ParsePKCS1PrivateKey : Payload → Except GoError PrivKey
  | .pkcs1 k => .ok (.rsa k)
  | _ => .error (.new "asn1 parse error")

/-- `x509.ParseECPrivateKey`: succeeds exactly on SEC1 payloads, yielding
an EC key. -/
def x509ParseECPrivateKey : Payload → Except GoError PrivKey
  | .sec1 k => .ok (.ec k)
  | _ => .error (.new "asn1 parse error")

/-- go-tuf `encrypted.Encrypt`: password-based authenticated encryption,
modelled ideally by a symbolic ciphertext recording plaintext and
passphrase. -/
def encryptedEncrypt (plaintext : Payload) (pass : List Nat) : Except GoError Payload :=
  .ok (.encrypted plaintext pass)

/-- go-tuf `encrypted.Decrypt`: authenticated decryption succeeds exactly
on a ciphertext produced under the same passphrase; a wrong passphrase,
or a payload that is not a ciphertext at all, fails. -/
def encryptedDecrypt : Payload → List Nat → Except GoError Payload
  | .encrypted c p, q => if q = p then .ok c else .error (.new "decryption failed")
  | _, _ => .error (.new "decryption failed")

/-- The standard PEM tag used by sigstore `cryptoutils` for public keys. -/
def PublicKeyPemType : String := "PUBLIC KEY"

/-- `cryptoutils.MarshalPublicKeyToPEM`: SPKI encoding framed in a
"PUBLIC KEY" PEM block; succeeds for all key types modelled here. -/
def marshalPublicKeyToPEM (p : PubKey) : Except GoError PemData :=
  .ok (pemEncodeToMemory ⟨PublicKeyPemType, .spki p⟩)

/-- `cryptoutils.UnmarshalPEMToPublicKey`: decodes the first PEM block
and reads an SPKI public key from it. -/
def unmarshalPEMToPublicKey (d : PemData) : Except GoError PubKey :=
  match pemDecode d with
  | none => .error (.new "no pem block")
  | some (b, _) =>
    match b.bytes with
    | .spki p => .ok p
    | _ => .error (.new "invalid public key")

/-- Result of a Go call returning `(value, error)`: `ret` keeps both
components (each may independently be nil), `panicked` models a runtime
panic. -/
inductive GoResult (α : Type) : Type where
  | ret : Option α → Option GoError → GoResult α
  | panicked : String → GoResult α
deriving DecidableEq

/-- Conversion of the value component (e.g. a concrete signer type made
into the `signature.SignerVerifier` interface). -/
def GoResult.mapVal {α β : Type} (f : α → β) : GoResult α → GoResult β
  | .ret v e => .ret (v.map f) e
  | .panicked m => .panicked m

/-- `signature.ECDSASignerVerifier`, holding the EC private key it signs
with (identified by its seed). -/
structure ECDSASignerVerifier : Type where
  key : Nat
deriving DecidableEq

/-- `signature.RSAPKCS1v15SignerVerifier`, holding the RSA private key it
signs with. -/
structure RSAPKCS1v15SignerVerifier : Type where
  key : Nat
deriving DecidableEq

/-- The `signature.SignerVerifier` interface: one of the two concrete
signer/verifier types constructed in keys.go. -/
inductive SignerVerifier : Type where
  | ecdsa : ECDSASignerVerifier → SignerVerifier
  | rsa : RSAPKCS1v15SignerVerifier → SignerVerifier
deriving DecidableEq

/-- `signature.LoadECDSASignerVerifier(epk, crypto.SHA256)`. -/
def loadECDSASignerVerifier (k : Nat) : GoResult ECDSASignerVerifier :=
  .ret (some ⟨k⟩) none

/-- `signature.LoadRSAPKCS1v15SignerVerifier(pk, crypto.SHA256)`. -/
def loadRSAPKCS1v15SignerVerifier (k : Nat) : GoResult RSAPKCS1v15SignerVerifier :=
  .ret (some ⟨k⟩) none

/-- A digital signature, modelled ideally: it identifies the public key
of the signing key and the signed message. -/
structure Sig : Type where
  pub : PubKey
  msg : List Nat
deriving DecidableEq

/-- `SignMessage` on a signer/verifier: signs with the held private key. -/
def SignerVerifier.signMessage : SignerVerifier → List Nat → Sig
  | .ecdsa sv, m => ⟨.ec sv.key, m⟩
  | .rsa sv, m => ⟨.rsa sv.key, m⟩

/-- `VerifySignature`: a signature verifies against a public key and a
message exactly when it was produced over that message by the private key
paired with that public key. -/
def verifySignature (pub : PubKey) (sig : Sig) (msg : List Nat) : Prop :=
  sig.pub = pub ∧ sig.msg = msg

instance (pub : PubKey) (sig : Sig) (msg : List Nat) :
    Decidable (verifySignature pub sig msg) :=
  inferInstanceAs (Decidable (sig.pub = pub ∧ sig.msg = msg))

/-- Constant `PrivateKeyPemType` from keys.go. -/
def PrivateKeyPemType : String := "ENCRYPTED COSIGN PRIVATE KEY"

/-- Constant `RSAPrivateKeyPemType` from keys.go. -/
def RSAPrivateKeyPemType : String := "RSA PRIVATE KEY"

/-- Constant `ECPrivateKeyPemType` from keys.go. -/
def ECPrivateKeyPemType : String := "EC PRIVATE KEY"

/-- `type PassFunc func(bool) ([]byte, error)`, as a pure function. -/
def PassFunc : Type := Bool → Except GoError (List Nat)

/-- `type Key struct`: a private-key handle and a public-key handle (the
two fields are independent; nothing in the type ties them together). -/
structure Key : Type where
  privateKey : PrivKey
  publicKey : PubKey
deriving DecidableEq

/-- `type Keys struct`: the encrypted key bundle. -/
structure Keys : Type where
  PrivateBytes : PemData
  PublicBytes : PemData
  password : List Nat
deriving DecidableEq

/-- `func (k *Keys) Password() []byte`. -/
def Keys.Password (k : Keys) : List Nat :=
  k.password

/-- `GeneratePrivateKey`: `ecdsa.GenerateKey(elliptic.P256(), rand.Reader)`,
with the random source abstracted into the seed. -/
def GeneratePrivateKey (seed : Nat) : Except GoError PrivKey :=
  .ok (.ec seed)

/-- `MarshallKeyPair`, instrumented: the second component records the
boolean arguments passed to the callback `pf`, in order. -/
def MarshallKeyPair (keypair : Key) (pf : PassFunc) : GoResult Keys × List Bool :=
  match x509MarshalPKCS8PrivateKey keypair.privateKey with
  | .error err => (.ret none (errorsWrap (some err) "x509 encoding private key"), [])
  | .ok x509Encoded =>
    match pf true with
    | .error err => (.ret none (some err), [true])
    | .ok password =>
      match encryptedEncrypt x509Encoded password with
      | .error err => (.ret none (some err), [true])
      | .ok encBytes =>
        let privBytes := pemEncodeToMemory ⟨PrivateKeyPemType, encBytes⟩
        match marshalPublicKeyToPEM keypair.publicKey with
        | .error err => (.ret none (some err), [true])
        | .ok pubBytes =>
          (.ret (some ⟨privBytes, pubBytes, password⟩) none, [true])

/-- `GenerateKeyPair`, instrumented like `MarshallKeyPair` (the Go
function inlines the same encoding steps rather than calling
`MarshallKeyPair`). -/
def GenerateKeyPair (seed : Nat) (pf : PassFunc) : GoResult Keys × List Bool :=
  match GeneratePrivateKey seed with
  | .error err => (.ret none (some err), [])
  | .ok priv =>
    match x509MarshalPKCS8PrivateKey priv with
    | .error err => (.ret none (errorsWrap (some err) "x509 encoding private key"), [])
    | .ok x509Encoded =>
      match pf true with
      | .error err => (.ret none (some err), [true])
      | .ok password =>
        match encryptedEncrypt x509Encoded password with
        | .error err => (.ret none (some err), [true])
        | .ok encBytes =>
          let privBytes := pemEncodeToMemory ⟨PrivateKeyPemType, encBytes⟩
          match marshalPublicKeyToPEM (derivePub priv) with
          | .error err => (.ret none (some err), [true])
          | .ok pubBytes =>
            (.ret (some ⟨privBytes, pubBytes, password⟩) none, [true])

/-- `ImportKeyPair`. `kb` is the contents of the key file (the
`os.ReadFile` call belongs to the excluded I/O layer). -/
def ImportKeyPair (kb : PemData) (pf : PassFunc) : GoResult Keys × List Bool :=
  match pemDecode kb with
  | none => (.ret none (some (.new "invalid pem block")), [])
  | some (p, _) =>
    if p.ty ≠ RSAPrivateKeyPemType ∧ p.ty ≠ ECPrivateKeyPemType then
      (.ret none (some (.errorf ("unsupported pem type: " ++ p.ty))), [])
    else if p.ty = RSAPrivateKeyPemType then
      match x509ParsePKCS1PrivateKey p.bytes with
      | .error _ => (.ret none (some (.errorf "parsing error")), [])
      | .ok pk => MarshallKeyPair ⟨pk, derivePub pk⟩ pf
    else
      match x509ParseECPrivateKey p.bytes with
      | .error _ => (.ret none (some (.errorf "parsing error")), [])
      | .ok pk => MarshallKeyPair ⟨pk, derivePub pk⟩ pf

/-- `LoadECDSAPrivateKey`: the parsed key is checked with a comma-ok type
assertion, so a non-EC key yields the "invalid private key" error. -/
def LoadECDSAPrivateKey (key : PemData) (pass : List Nat) : GoResult ECDSASignerVerifier :=
  match pemDecode key with
  | none => .ret none (some (.new "invalid pem block"))
  | some (p, _) =>
    if p.ty ≠ PrivateKeyPemType then
      .ret none (some (.errorf ("unsupported pem type: " ++ p.ty)))
    else
      match encryptedDecrypt p.bytes pass with
      | .error err => .ret none (errorsWrap (some err) "decrypt")
      | .ok x509Encoded =>
        match x509ParsePKCS8PrivateKey x509Encoded with
        | .error err => .ret none (errorsWrap (some err) "parsing private key")
        | .ok pk =>
          match pk with
          | .ec k => loadECDSASignerVerifier k
          | _ => .ret none (some (.new "invalid private key"))

/-- `LoadRSAPrivateKey`: the final `pk.(*rsa.PrivateKey)` is an unchecked
type assertion, so a non-RSA key makes the call panic. -/
def LoadRSAPrivateKey (key : PemData) (pass : List Nat) : GoResult RSAPKCS1v15SignerVerifier :=
  match pemDecode key with
  | none => .ret none (some (.new "invalid pem block"))
  | some (p, _) =>
    if p.ty ≠ PrivateKeyPemType then
      .ret none (some (.errorf ("unsupported pem type: " ++ p.ty)))
    else
      match encryptedDecrypt p.bytes pass with
      | .error err => .ret none (errorsWrap (some err) "decrypt")
      | .ok x509Encoded =>
        match x509ParsePKCS8PrivateKey x509Encoded with
        | .error err => .ret none (errorsWrap (some err) "parsing private key")
        | .ok pk =>
          match pk with
          | .rsa k => loadRSAPKCS1v15SignerVerifier k
          | _ => .panicked "interface conversion: crypto.PrivateKey is not *rsa.PrivateKey"

/-- `LoadPrivateKey`: generic loader. On the switch fallthrough (a parsed
key that is neither RSA nor EC) the Go code executes
`return nil, errors.Wrap(err, "loading private key")` where `err` is the
nil error left over from the successful `ParsePKCS8PrivateKey` call, so
`errorsWrap none _` — i.e. a nil error — is returned together with the
nil signer. -/
def LoadPrivateKey (key : PemData) (pass : List Nat) : GoResult SignerVerifier :=
  match pemDecode key with
  | none => .ret none (some (.new "invalid pem block"))
  | some (p, _) =>
    if p.ty ≠ PrivateKeyPemType then
      .ret none (some (.errorf ("unsupported pem type: " ++ p.ty)))
    else
      match encryptedDecrypt p.bytes pass with
      | .error err => .ret none (errorsWrap (some err) "decrypt")
      | .ok x509Encoded =>
        match x509ParsePKCS8PrivateKey x509Encoded with
        | .error err => .ret none (errorsWrap (some err) "parsing private key")
        | .ok pk =>
          match pk with
          | .rsa _ => (LoadRSAPrivateKey key pass).mapVal .rsa
          | .ec _ => (LoadECDSAPrivateKey key pass).mapVal .ecdsa
          | _ => .ret none (errorsWrap none "loading private key")

/-- The private key a bundle carries: decode the first PEM block of
`PrivateBytes`, decrypt its body with the bundle's own password, and
parse the PKCS#8 plaintext. This is the spec's notion of "the private key
in the same bundle". -/
def bundlePrivateKey (keys : Keys) : Option PrivKey :=
  match pemDecode keys.PrivateBytes with
  | none => none
  | some (b, _) =>
    match encryptedDecrypt b.bytes keys.password with
    | .error _ => none
    | .ok pl =>
      match x509ParsePKCS8PrivateKey pl with
      | .error _ => none
      | .ok k => some k

/-- C1: contrary to the claim, `LoadPrivateKey` applied to a well-framed,
correctly tagged bundle whose payload decrypts (here under passphrase
`[1]`) and parses to a private key that is neither RSA nor EC (an
Ed25519-like key) returns a nil signer/verifier together with a nil
error: the fallthrough executes `errors.Wrap(err, "loading private key")`
on a nil `err`, which yields nil. -/
theorem loadPrivateKey_unsupported_alg_returns_nil_nil :
    LoadPrivateKey
      (pemEncodeToMemory ⟨PrivateKeyPemType, .encrypted (.pkcs8 (.other 0)) [1]⟩) [1]
      = .ret none none := by
  decide

/-- C2: on a well-framed bundle of the wrong algorithm, decrypted with
the correct passphrase, `LoadECDSAPrivateKey` (comma-ok assertion)
returns the "invalid private key" error as claimed, but
`LoadRSAPrivateKey` (unchecked type assertion `pk.(*rsa.PrivateKey)`)
panics instead of returning an error, refuting the claim's totality. -/
theorem loadRSA_on_ec_panics_and_loadECDSA_on_rsa_errors :
    LoadECDSAPrivateKey
        (pemEncodeToMemory ⟨PrivateKeyPemType, .encrypted (.pkcs8 (.rsa 0)) [1]⟩) [1]
      = .ret none (some (.new "invalid private key")) ∧
    LoadRSAPrivateKey
        (pemEncodeToMemory ⟨PrivateKeyPemType, .encrypted (.pkcs8 (.ec 0)) [1]⟩) [1]
      = .panicked "interface conversion: crypto.PrivateKey is not *rsa.PrivateKey" := by
  constructor <;> decide

/-- C9: both `ImportKeyPair` and `LoadPrivateKey` use only the first PEM
block of their input (`pem.Decode`'s remainder is discarded with `_`), so
on an input whose first block is `b` the result is independent of
whatever trailing bytes follow, and trailing data never causes an error. -/
theorem firstBlock_only_trailing_ignored (b : PemBlock) (t u : PemData)
    (pass : List Nat) (pf : PassFunc) :
    LoadPrivateKey (.firstBlock b t) pass = LoadPrivateKey (.firstBlock b u) pass ∧
    ImportKeyPair (.firstBlock b t) pf = ImportKeyPair (.firstBlock b u) pf :=
  ⟨rfl, rfl⟩

/-- C8: for any callback that returns passphrase `p`, both
`MarshallKeyPair` and `GenerateKeyPair` succeed and the returned bundle's
`Password()` accessor yields exactly `p`; for any callback that fails
with error `e`, both return no bundle and propagate `e` unchanged. -/
theorem password_exposed_and_callback_error_propagated
    (kp : Key) (seed : Nat) (p : List Nat) (e : GoError) :
    (∃ keys, (MarshallKeyPair kp (fun _ => .ok p)).1 = .ret (some keys) none ∧
      keys.Password = p) ∧
    (∃ keys, (GenerateKeyPair seed (fun _ => .ok p)).1 = .ret (some keys) none ∧
      keys.Password = p) ∧
    (MarshallKeyPair kp (fun _ => .error e)).1 = .ret none (some e) ∧
    (GenerateKeyPair seed (fun _ => .error e)).1 = .ret none (some e) :=
  ⟨⟨_, rfl, rfl⟩, ⟨_, rfl, rfl⟩, rfl, rfl⟩

/-- C10: `MarshallKeyPair` never relates the two handles of the `Key` it
receives: for any private handle and any (possibly mismatched) public
handle, with a succeeding callback it succeeds, and the bundle's
`PublicBytes` are exactly the PEM serialization of the supplied public
handle. -/
theorem marshall_does_not_check_pairing (priv : PrivKey) (pub : PubKey) (p : List Nat) :
    ∃ keys, (MarshallKeyPair ⟨priv, pub⟩ (fun _ => .ok p)).1 = .ret (some keys) none ∧
      marshalPublicKeyToPEM pub = .ok keys.PublicBytes :=
  ⟨_, rfl, rfl⟩

/-- C3: round-trip. For every seed, passphrase `p` and message,
`GenerateKeyPair` succeeds, `LoadPrivateKey` on the bundle's
`PrivateBytes` with the same passphrase succeeds, and a signature the
resulting signer produces over the message verifies against the public
key serialized in the bundle's `PublicBytes`. -/
theorem generate_load_roundtrip (seed : Nat) (p msg : List Nat) :
    ∃ keys sv pub,
      (GenerateKeyPair seed (fun _ => .ok p)).1 = .ret (some keys) none ∧
      LoadPrivateKey keys.PrivateBytes p = .ret (some sv) none ∧
      unmarshalPEMToPublicKey keys.PublicBytes = .ok pub ∧
      verifySignature pub (sv.signMessage msg) msg := by
  refine ⟨_, .ecdsa ⟨seed⟩, .ec seed, rfl, ?_, rfl, rfl, rfl⟩
  simp [LoadPrivateKey, LoadECDSAPrivateKey, pemDecode, pemEncodeToMemory,
    encryptedDecrypt, x509ParsePKCS8PrivateKey, PrivateKeyPemType,
    loadECDSASignerVerifier, GoResult.mapVal]

/-- C4: wrong passphrase. For every payload encrypted under passphrase
`p`, every trailing remainder, and every passphrase `q ≠ p`, all three
loader entry points fail with the wrapped "decrypt" error and never
return key material. -/
theorem wrong_passphrase_fails (pl : Payload) (p q : List Nat) (rest : PemData)
    (h : q ≠ p) :
    LoadPrivateKey (.firstBlock ⟨PrivateKeyPemType, .encrypted pl p⟩ rest) q
      = .ret none (some (.wrap "decrypt" (.new "decryption failed"))) ∧
    LoadECDSAPrivateKey (.firstBlock ⟨PrivateKeyPemType, .encrypted pl p⟩ rest) q
      = .ret none (some (.wrap "decrypt" (.new "decryption failed"))) ∧
    LoadRSAPrivateKey (.firstBlock ⟨PrivateKeyPemType, .encrypted pl p⟩ rest) q
      = .ret none (some (.wrap "decrypt" (.new "decryption failed"))) := by
  refine ⟨?_, ?_, ?_⟩ <;>
    simp [LoadPrivateKey, LoadECDSAPrivateKey, LoadRSAPrivateKey, pemDecode,
      encryptedDecrypt, errorsWrap, h]

/-- Witness for C4 at the concrete input `p = [1]`, `q = [2]`. -/
theorem wrong_passphrase_fails_witness :
    ([2] : List Nat) ≠ [1] ∧
    (LoadPrivateKey
        (.firstBlock ⟨PrivateKeyPemType, .encrypted (.raw []) [1]⟩ (.noBlock [])) [2]
        = .ret none (some (.wrap "decrypt" (.new "decryption failed"))) ∧
      LoadECDSAPrivateKey
        (.firstBlock ⟨PrivateKeyPemType, .encrypted (.raw []) [1]⟩ (.noBlock [])) [2]
        = .ret none (some (.wrap "decrypt" (.new "decryption failed"))) ∧
      LoadRSAPrivateKey
        (.firstBlock ⟨PrivateKeyPemType, .encrypted (.raw []) [1]⟩ (.noBlock [])) [2]
        = .ret none (some (.wrap "decrypt" (.new "decryption failed")))) :=
  ⟨by decide, wrong_passphrase_fails (.raw []) [1] [2] (.noBlock []) (by decide)⟩

/-- C5: loader input validation. When no PEM block can be decoded,
`LoadPrivateKey` fails with the "invalid pem block" error; when the first
block's tag differs from `PrivateKeyPemType`, it fails with the
"unsupported pem type" error naming the offending tag. In both cases no
signer/verifier is returned. -/
theorem loadPrivateKey_format_rejection (key : PemData) (pass : List Nat) :
    (pemDecode key = none →
      LoadPrivateKey key pass = .ret none (some (.new "invalid pem block"))) ∧
    (∀ b rest, pemDecode key = some (b, rest) → b.ty ≠ PrivateKeyPemType →
      LoadPrivateKey key pass
        = .ret none (some (.errorf ("unsupported pem type: " ++ b.ty)))) := by
  constructor
  · intro h
    cases key with
    | noBlock bs => simp [LoadPrivateKey, pemDecode]
    | firstBlock b rest => simp [pemDecode] at h
  · intro b rest hdec hty
    cases key with
    | noBlock bs => simp [pemDecode] at hdec
    | firstBlock b2 rest2 =>
      simp [pemDecode] at hdec
      obtain ⟨hb, hr⟩ := hdec
      subst hb
      simp [LoadPrivateKey, pemDecode, hty]

/-- Witness for C5: the no-block case at an empty input, and the
wrong-tag case at a plain "EC PRIVATE KEY" block. -/
theorem loadPrivateKey_format_rejection_witness :
    (pemDecode (.noBlock []) = none ∧
      LoadPrivateKey (.noBlock []) [] = .ret none (some (.new "invalid pem block"))) ∧
    (pemDecode (.firstBlock ⟨"EC PRIVATE KEY", .raw []⟩ (.noBlock []))
        = some (⟨"EC PRIVATE KEY", .raw []⟩, .noBlock []) ∧
      ("EC PRIVATE KEY" : String) ≠ PrivateKeyPemType ∧
      LoadPrivateKey (.firstBlock ⟨"EC PRIVATE KEY", .raw []⟩ (.noBlock [])) []
        = .ret none (some (.errorf ("unsupported pem type: " ++ "EC PRIVATE KEY")))) :=
  ⟨⟨rfl, (loadPrivateKey_format_rejection (.noBlock []) []).1 rfl⟩,
    ⟨rfl, by decide,
      (loadPrivateKey_format_rejection
        (.firstBlock ⟨"EC PRIVATE KEY", .raw []⟩ (.noBlock [])) []).2
        ⟨"EC PRIVATE KEY", .raw []⟩ (.noBlock []) rfl (by decide)⟩⟩

/-- Case split for `ImportKeyPair`: it either reaches the encoder with a
parsed key whose public handle is derived from it, or fails before the
passphrase step with some error and an empty callback trace. -/
lemma importKeyPair_split (kb : PemData) (pf : PassFunc) :
    (∃ pk, ImportKeyPair kb pf = MarshallKeyPair ⟨pk, derivePub pk⟩ pf) ∨
    (∃ err, ImportKeyPair kb pf = (.ret none (some err), [])) := by
  cases kb with
  | noBlock bs => exact .inr ⟨.new "invalid pem block", rfl⟩
  | firstBlock b rest =>
    by_cases hr : b.ty = RSAPrivateKeyPemType
    · cases hp : x509ParsePKCS1PrivateKey b.bytes with
      | error e =>
        refine .inr ⟨.errorf "parsing error", ?_⟩
        simp [ImportKeyPair, pemDecode, hr, hp, RSAPrivateKeyPemType, ECPrivateKeyPemType]
      | ok pk =>
        refine .inl ⟨pk, ?_⟩
        simp [ImportKeyPair, pemDecode, hr, hp, RSAPrivateKeyPemType, ECPrivateKeyPemType]
    · by_cases he : b.ty = ECPrivateKeyPemType
      · cases hp : x509ParseECPrivateKey b.bytes with
        | error e =>
          refine .inr ⟨.errorf "parsing error", ?_⟩
          simp [ImportKeyPair, pemDecode, hr, he, hp, RSAPrivateKeyPemType,
            ECPrivateKeyPemType]
        | ok pk =>
          refine .inl ⟨pk, ?_⟩
          simp [ImportKeyPair, pemDecode, hr, he, hp, RSAPrivateKeyPemType,
            ECPrivateKeyPemType]
      · refine .inr ⟨.errorf ("unsupported pem type: " ++ b.ty), ?_⟩
        simp [ImportKeyPair, pemDecode, hr, he]

/-- When `MarshallKeyPair` returns a bundle, the bundle carries the
received private handle (encrypted under the bundle's own password) and
the PEM serialization of the received public handle. -/
lemma marshallKeyPair_bundle_inv (kp : Key) (pf : PassFunc) (keys : Keys)
    (e : Option GoError) (tr : List Bool)
    (h : MarshallKeyPair kp pf = (.ret (some keys) e, tr)) :
    bundlePrivateKey keys = some kp.privateKey ∧
      marshalPublicKeyToPEM kp.publicKey = .ok keys.PublicBytes := by
  cases hpf : pf true with
  | error err =>
    simp [MarshallKeyPair, x509MarshalPKCS8PrivateKey, hpf] at h
  | ok pw =>
    simp only [MarshallKeyPair, x509MarshalPKCS8PrivateKey, encryptedEncrypt,
      marshalPublicKeyToPEM, hpf] at h
    injection h with h1 h2
    injection h1 with hv he
    injection hv with hk
    subst hk
    refine ⟨?_, rfl⟩
    simp [bundlePrivateKey, pemDecode, pemEncodeToMemory, encryptedDecrypt,
      x509ParsePKCS8PrivateKey, Keys.password]

/-- C7: every encoder invocation that reaches the passphrase step calls
the callback exactly once with argument `true`: `MarshallKeyPair` and
`GenerateKeyPair` always do (their serialization step cannot fail for the
supported key types), and `ImportKeyPair` either does so or fails before
the passphrase step without calling the callback at all. The loaders take
the passphrase bytes directly and have no callback to invoke. -/
theorem passfunc_called_once_with_true (kp : Key) (pf : PassFunc) (seed : Nat)
    (kb : PemData) :
    (MarshallKeyPair kp pf).2 = [true] ∧
    (GenerateKeyPair seed pf).2 = [true] ∧
    ((ImportKeyPair kb pf).2 = [true] ∨ (ImportKeyPair kb pf).2 = []) := by
  have hm : ∀ kp2 : Key, (MarshallKeyPair kp2 pf).2 = [true] := by
    intro kp2
    cases hpf : pf true <;>
      simp [MarshallKeyPair, x509MarshalPKCS8PrivateKey, encryptedEncrypt,
        marshalPublicKeyToPEM, hpf]
  refine ⟨hm kp, ?_, ?_⟩
  · cases hpf : pf true <;>
      simp [GenerateKeyPair, GeneratePrivateKey, x509MarshalPKCS8PrivateKey,
        encryptedEncrypt, marshalPublicKeyToPEM, hpf]
  · rcases importKeyPair_split kb pf with ⟨pk, hpk⟩ | ⟨err, herr⟩
    · exact .inl (by rw [hpk]; exact hm _)
    · exact .inr (by rw [herr])

/-- C6: every bundle returned successfully by `GenerateKeyPair` or
`ImportKeyPair` is self-consistent: decrypting and parsing its
`PrivateBytes` (under the bundle's own password) yields a private key
whose derived public key serializes exactly to the bundle's
`PublicBytes`. -/
theorem bundle_public_key_determinism (seed : Nat) (pf : PassFunc) (kb : PemData) :
    (∀ keys e tr, GenerateKeyPair seed pf = (.ret (some keys) e, tr) →
      ∃ k, bundlePrivateKey keys = some k ∧
        marshalPublicKeyToPEM (derivePub k) = .ok keys.PublicBytes) ∧
    (∀ keys e tr, ImportKeyPair kb pf = (.ret (some keys) e, tr) →
      ∃ k, bundlePrivateKey keys = some k ∧
        marshalPublicKeyToPEM (derivePub k) = .ok keys.PublicBytes) := by
  constructor
  · intro keys e tr h
    cases hpf : pf true with
    | error err =>
      simp [GenerateKeyPair, GeneratePrivateKey, x509MarshalPKCS8PrivateKey, hpf] at h
    | ok pw =>
      simp only [GenerateKeyPair, GeneratePrivateKey, x509MarshalPKCS8PrivateKey,
        encryptedEncrypt, marshalPublicKeyToPEM, hpf] at h
      injection h with h1 h2
      injection h1 with hv he
      injection hv with hk
      subst hk
      refine ⟨.ec seed, ?_, rfl⟩
      simp [bundlePrivateKey, pemDecode, pemEncodeToMemory, encryptedDecrypt,
        x509ParsePKCS8PrivateKey]
  · intro keys e tr h
    rcases importKeyPair_split kb pf with ⟨pk, hpk⟩ | ⟨err, herr⟩
    · rw [hpk] at h
      obtain ⟨hb, hpub⟩ := marshallKeyPair_bundle_inv ⟨pk, derivePub pk⟩ pf keys e tr h
      exact ⟨pk, hb, hpub⟩
    · rw [herr] at h
      simp at h

/-- Witness for C6: the generated bundle at seed 0 and passphrase `[7]`. -/
theorem bundle_public_key_determinism_witness :
    GenerateKeyPair 0 (fun _ => .ok [7])
      = (.ret (some ⟨pemEncodeToMemory ⟨PrivateKeyPemType, .encrypted (.pkcs8 (.ec 0)) [7]⟩,
                     pemEncodeToMemory ⟨PublicKeyPemType, .spki (.ec 0)⟩, [7]⟩) none,
         [true]) ∧
    (∃ k, bundlePrivateKey
            ⟨pemEncodeToMemory ⟨PrivateKeyPemType, .encrypted (.pkcs8 (.ec 0)) [7]⟩,
             pemEncodeToMemory ⟨PublicKeyPemType, .spki (.ec 0)⟩, [7]⟩ = some k ∧
      marshalPublicKeyToPEM (derivePub k)
        = .ok (pemEncodeToMemory ⟨PublicKeyPemType, .spki (.ec 0)⟩)) :=
  ⟨rfl, (bundle_public_key_determinism 0 (fun _ => .ok [7]) (.noBlock [])).1 _ none [true] rfl⟩

end Cosign
